import Mathlib

/-!
Verification of the event-size / overflow-offload pipeline in
`src/src/shortener/lambda_function.py` (aws-cdk-eventbridge-shortener).

The Python module is shallowly embedded: JSON-decodable Python values become
the inductive type `JVal`; Python dicts become association lists with
Python-dict update/delete semantics; `json.dumps` (default settings:
`ensure_ascii=True`, separators `", "` and `": "`) becomes `dumps`;
`str.encode("utf-8")` byte length becomes `encodeLen`.  Fallible code
(uncaught Python exceptions) is modelled with `Option`, `none` meaning the
call raises.  External collaborators that the module merely invokes
(`json.loads`, Python `str()`, the S3 client, `uuid`, the clock, environment
variables, the Lambda context) are passed in as the `ExtWorld` record; the
observable effects a request produces (response value, final mutated event,
number of storage invocations, emitted metric samples) are collected in
`HandlerResult`.
-/

/-- A JSON-decodable Python value (`None`, `bool`, `int`, `str`, `list`,
`dict`).  Python dicts are represented as association lists in insertion
order with unique keys, matching dicts produced by `json.loads`. -/
inductive JVal where
  | null : JVal
  | jbool : Bool → JVal
  | num : Int → JVal
  | str : String → JVal
  | arr : List JVal → JVal
  | obj : List (String × JVal) → JVal

/-- Python `d.get(k)` on a dict: the value of the first (unique) matching
key, or `none` when the key is absent. -/
def pyGet : List (String × JVal) → String → Option JVal
  | [], _ => none
  | p :: kvs, k => if p.1 == k then some p.2 else pyGet kvs k

/-- Python `d.get(k)` with the Python value `None` (absent key) represented
as `JVal.null` — exactly the conflation Python performs, since JSON `null`
also decodes to `None`. -/
def pyGetJ (kvs : List (String × JVal)) (k : String) : JVal :=
  (pyGet kvs k).getD .null

/-- Python `k in d` on a dict. -/
def assocHas : List (String × JVal) → String → Bool
  | [], _ => false
  | p :: kvs, k => p.1 == k || assocHas kvs k

/-- Replacement of the value under an existing key, keeping its position. -/
def assocReplace : List (String × JVal) → String → JVal → List (String × JVal)
  | [], _, _ => []
  | p :: kvs, k, v => (if p.1 == k then (k, v) else p) :: assocReplace kvs k v

/-- Python `d.update` with a single key: an existing key keeps its position
and gets the new value, a new key is appended at the end. -/
def assocSet (kvs : List (String × JVal)) (k : String) (v : JVal) : List (String × JVal) :=
  if assocHas kvs k then assocReplace kvs k v else kvs ++ [(k, v)]

/-- Python `del d[k]`. -/
def assocDel : List (String × JVal) → String → List (String × JVal)
  | [], _ => []
  | p :: kvs, k => if p.1 == k then assocDel kvs k else p :: assocDel kvs k

/-- Number of entries of an association list under a given key. -/
def countKey : List (String × JVal) → String → Nat
  | [], _ => 0
  | p :: kvs, k => (if p.1 == k then 1 else 0) + countKey kvs k

/-- Python truthiness of a JSON-decodable value (`if resource:`). -/
def pyTruthy : JVal → Bool
  | .null => false
  | .jbool b => b
  | .num n => n != 0
  | .str s => !s.isEmpty
  | .arr xs => !xs.isEmpty
  | .obj kvs => !kvs.isEmpty

/-- Lower-case hex digit, as produced by Python's json `\uXXXX` escapes. -/
def hexDigit (n : Nat) : Char :=
  if n < 10 then Char.ofNat (48 + n) else Char.ofNat (87 + n)

/-- Four lower-case hex digits. -/
def hex4 (n : Nat) : String :=
  String.mk [hexDigit (n / 4096 % 16), hexDigit (n / 256 % 16), hexDigit (n / 16 % 16), hexDigit (n % 16)]

/-- How Python's `json` module (default `ensure_ascii=True`) renders one
character inside a string literal: `"` and backslash get a backslash escape,
the five short escapes are used for backspace, tab, newline, form feed and
carriage return, every other character outside the printable ASCII range
0x20–0x7E is written as `\uXXXX` (a surrogate pair beyond the BMP), and
printable ASCII is kept as is. -/
def escapeChar (c : Char) : String :=
  if c = '"' then "\\\""
  else if c = '\\' then "\\\\"
  else if c = '\n' then "\\n"
  else if c = '\r' then "\\r"
  else if c = '\t' then "\\t"
  else if c.toNat = 8 then "\\b"
  else if c.toNat = 12 then "\\f"
  else if c.toNat < 32 ∨ c.toNat > 126 then
    if c.toNat < 65536 then "\\u" ++ hex4 c.toNat
    else "\\u" ++ hex4 (55296 + (c.toNat - 65536) / 1024)
      ++ "\\u" ++ hex4 (56320 + (c.toNat - 65536) % 1024)
  else String.mk [c]

/-- A Python json string literal: quotes around the escaped characters. -/
def encodeString (s : String) : String :=
  "\"" ++ String.join (s.data.map escapeChar) ++ "\""

mutual

/-- `json.dumps` with its default settings: item separator `", "`, key
separator `": "`, `ensure_ascii=True`, keys in insertion order
(`sort_keys=False`).  JSON floats are not needed by this module and are not
modelled; integers render in decimal as in Python. -/
def dumps : JVal → String
  | .null => "null"
  | .jbool b => if b then "true" else "false"
  | .num n => toString n
  | .str s => encodeString s
  | .arr xs => "[" ++ dumpsList xs ++ "]"
  | .obj kvs => "\x7b" ++ dumpsObj kvs ++ "\x7d"

/-- The comma-separated rendering of a JSON array's elements. -/
def dumpsList : List JVal → String
  | [] => ""
  | [x] => dumps x
  | x :: y :: xs => dumps x ++ ", " ++ dumpsList (y :: xs)

/-- The comma-separated rendering of a JSON object's entries. -/
def dumpsObj : List (String × JVal) → String
  | [] => ""
  | [(k, v)] => encodeString k ++ ": " ++ dumps v
  | (k, v) :: p :: kvs => encodeString k ++ ": " ++ dumps v ++ ", " ++ dumpsObj (p :: kvs)

end

/-- UTF-8 width of one character, as counted by Python `str.encode("utf-8")`. -/
def charUtf8Size (c : Char) : Nat :=
  if c.toNat < 128 then 1 else if c.toNat < 2048 then 2 else if c.toNat < 65536 then 3 else 4

/-- `len(s.encode("utf-8"))`. -/
def encodeLen (s : String) : Nat :=
  (s.data.map charUtf8Size).sum

/-!  The functions of `lambda_function.py`, in source order.  -/

/-- Outcome of `extract_data` (lines 48–57): the function returns the decoded
body, or the Python value `False` on a JSON syntax error, or — when the
incoming event has no `body` key — falls off the end and returns `None`. -/
inductive ExtractResult where
  | ok : JVal → ExtractResult
  | decodeFail : ExtractResult
  | noBody : ExtractResult

/-- `extract_data` (lines 48–57).  `parse` stands for `json.loads`; a `parse`
result of `none` is a `ValueError`, which the function catches and turns
into `False`.  `none` overall means an uncaught exception: `json.loads`
applied to a non-string body raises `TypeError`, which the `except
ValueError` clause does not catch; likewise `event['body']` on a list, or
`'body' in event` on a non-container, raises. -/
def extract_data (parse : String → Option JVal) (event : JVal) : Option ExtractResult :=
  match event with
  | .obj kvs =>
    match pyGet kvs "body" with
    | none => some .noBody
    | some (.str s) =>
      match parse s with
      | some v => some (.ok v)
      | none => some .decodeFail
    | some _ => none
  | .arr xs =>
    if xs.any (fun v => match v with | .str t => t == "body" | _ => false) then none
    else some .noBody
  | .str s => if (s.splitOn "body").length > 1 then none else some .noBody
  | _ => none

/-- The 14-byte timestamp overhead of lines 72–73: Python tests
`eventbridge_event.get("time") is not None`, so an absent `time` and a
`time` whose value is JSON `null` both contribute 0. -/
def timeOverhead (kvs : List (String × JVal)) : Nat :=
  match pyGetJ kvs "time" with
  | .null => 0
  | _ => 14

/-- One entry of the `resources` loop body (lines 77–79): a falsy entry is
skipped, a truthy string contributes its UTF-8 length, and a truthy
non-string raises (`.encode` is a `str` method). -/
def resourceBytes (v : JVal) : Option Nat :=
  if pyTruthy v then
    match v with
    | .str s => some (encodeLen s)
    | _ => none
  else some 0

/-- The summation of the `resources` loop (lines 77–79). -/
def sumResources : List JVal → Option Nat
  | [] => some 0
  | v :: vs =>
    match resourceBytes v, sumResources vs with
    | some a, some b => some (a + b)
    | _, _ => none

/-- The iterable produced by `eventbridge_event.get("resources", [])`
(line 77): the default empty list when the key is absent; the elements of a
list; the characters of a string (Python iterates a string by characters);
the keys of a dict; `none` (a `TypeError`) for any non-iterable value. -/
def resourceList (kvs : List (String × JVal)) : Option (List JVal) :=
  match pyGet kvs "resources" with
  | none => some []
  | some (.arr xs) => some xs
  | some (.str s) => some (s.data.map (fun c => .str (String.mk [c])))
  | some (.obj okvs) => some (okvs.map (fun p => .str p.1))
  | some _ => none

/-- `get_eventbridge_put_event_size` (lines 60–83).  `none` means the
function raises: the event is not a dict (`.get` on `None` or another
value), or `source` / `detail-type` is absent or not a string
(`None.encode` / `int.encode` raise), or the `resources` value is not
iterable, or a truthy resource entry is not a string.  The tracer
annotation on line 81 has no observable effect and is not modelled. -/
def get_eventbridge_put_event_size (eventbridge_event : JVal) : Option Nat :=
  match eventbridge_event with
  | .obj kvs =>
    match pyGetJ kvs "source", pyGetJ kvs "detail-type", resourceList kvs with
    | .str source, .str detailType, some rs =>
      match sumResources rs with
      | some rsum =>
        some (timeOverhead kvs + encodeLen source + encodeLen detailType
          + encodeLen (dumps (pyGetJ kvs "detail")) + rsum)
      | none => none
    | _, _, _ => none
  | _ => none

/-- One emitted metric sample: `put_event_size_metrics` (lines 86–104) adds
a Size sample and a Count sample dimensioned by the event type and tagged
with the request id; the whole call is summarised as the triple of its
arguments. -/
def put_event_size_metrics (event_size : Nat) (event_type : JVal) (put_event_id : String) :
    Nat × JVal × String :=
  (event_size, event_type, put_event_id)

/-- A Python `None`-valued optional string argument, as stored into the
metadata dict (it serializes to JSON `null`). -/
def jOfStrOpt : Option String → JVal
  | none => .null
  | some s => .str s

/-- A Python `None`-valued optional integer argument. -/
def jOfNatOpt : Option Nat → JVal
  | none => .null
  | some n => .num n

/-- The `add_key` dict value built inside `add_event_metadata`
(lines 123–133 for the truncated case, 144–149 for the other). -/
def truncation_record (trucated : Bool) (presigned_url : Option String)
    (event_data_size : Option Nat) (bucket_name : Option String)
    (object_path : Option String) : JVal :=
  if trucated then
    .obj [("event_truncated", .jbool true),
          ("event_body_url", jOfStrOpt presigned_url),
          ("event_data_size", jOfNatOpt event_data_size),
          ("event_object_bucket", jOfStrOpt bucket_name),
          ("event_object_key", jOfStrOpt object_path)]
  else
    .obj [("event_truncated", .jbool false)]

/-- `add_event_metadata` (lines 107–154).  The Python function mutates
`event["detail"]["metadata"]` in place and, when `trucated_event` is true,
afterwards deletes `event["detail"]["data"]` if present; the mutation is
modelled by rebuilding the event.  `none` means the function raises:
`event["detail"]` is absent (`KeyError`) or not a dict, or
`...["metadata"]` is absent or not a dict (`.update` is a dict method). -/
def add_event_metadata (event : JVal) (trucated_event : Bool) (presigned_url : Option String)
    (event_data_size : Option Nat) (bucket_name : Option String)
    (object_path : Option String) : Option JVal :=
  match event with
  | .obj ekvs =>
    match pyGet ekvs "detail" with
    | some (.obj dkvs) =>
      match pyGet dkvs "metadata" with
      | some (.obj mkvs) =>
        let mkvs1 := assocSet mkvs "event_trucation"
          (truncation_record trucated_event presigned_url event_data_size bucket_name object_path)
        let dkvs1 := assocSet dkvs "metadata" (.obj mkvs1)
        let dkvs2 := if trucated_event && assocHas dkvs1 "data" then assocDel dkvs1 "data" else dkvs1
        some (.obj (assocSet ekvs "detail" (.obj dkvs2)))
      | _ => none
    | _ => none
  | _ => none

/-- `create_presigned_url` (lines 157–201).  The body writes the content to
a temp file, uploads it to S3 and asks for a presigned GET URL; on any
`ClientError` it logs and returns `None`.  The S3 interaction is external,
so it is modelled by the oracle `s3`, applied to the bucket name, object
path, file content and expiration: `s3 ... = none` is a `ClientError`
during upload or presigning, `some url` is the returned presigned URL. -/
def create_presigned_url (s3 : String → String → String → String → Option String)
    (bucket_name : String) (file_name : String) (object_path : String)
    (file_content : String) (expiration : String) : Option String :=
  s3 bucket_name object_path file_content expiration

/-- The environment of one invocation: the external collaborators and
ambient inputs `lambda_handler` consumes.  `parse` is `json.loads`, `pystr`
is Python `str()` (used only to build the uploaded file content), `s3` is
the S3 client as in `create_presigned_url`, `uuidStr` the value of
`uuid.uuid4()`, `year`/`month`/`day` today's date, `bucketName` the
`SHORTENER_BUCKET_NAME` variable, `urlExpTime` the (string-valued!)
`URL_EXP_TIME` variable, and `requestId` is `context.aws_request_id`. -/
structure ExtWorld where
  parse : String → Option JVal
  pystr : JVal → String
  s3 : String → String → String → String → Option String
  uuidStr : String
  year : Nat
  month : Nat
  day : Nat
  bucketName : String
  urlExpTime : String
  requestId : String

/-- The observable outcome of one invocation: the response value the handler
returns (before the final `json.dumps`; `none` means the invocation raised
an uncaught exception), the final state of the decoded event after the
in-place mutations, the number of times the storage collaborator
(`create_presigned_url`) was invoked, and the emitted metric samples. -/
structure HandlerResult where
  response : Option JVal
  finalEvent : Option JVal
  storageCalls : Nat
  metrics : List (Nat × JVal × String)

/-- `.get(k)` on a value known to be a dict (used for the mutated
`event_data.get("detail-type")` of lines 243–244 and 264–265). -/
def jGetD (v : JVal) (k : String) : JVal :=
  match v with
  | .obj kvs => pyGetJ kvs k
  | _ => .null

/-- The response dict of lines 267–273 (pass-through branch). -/
def passResponse (final_event_size : Nat) : JVal :=
  .obj [("statusCode", .num 200),
        ("headers", .obj [("Content-Type", .str "application/json")]),
        ("event", .obj [("event_trucated", .jbool false),
                        ("event_size", .num final_event_size)])]

/-- The response dict of lines 246–253 (overflow branch). -/
def overflowResponse (presigned_url : Option String) (final_event_size : Nat) : JVal :=
  .obj [("statusCode", .num 200),
        ("headers", .obj [("Content-Type", .str "application/json")]),
        ("event", .obj [("event_trucated", .jbool true),
                        ("presigned_url", jOfStrOpt presigned_url),
                        ("event_size", .num final_event_size)])]

/-- The response dict of line 212. -/
def invalidJsonResponse : JVal :=
  .obj [("statusCode", .num 400), ("message", .str "Invalid JSON in body")]

/-- Lines 215–274 of `lambda_handler`: everything after the decode check,
applied to the decoded `event_data`.  A `none` leg of a `match` is an
uncaught Python exception at the corresponding source line; note that on
the overflow branch a crash inside `add_event_metadata` still happens
*after* the storage collaborator was invoked, so `storageCalls` is 1
there. -/
def lambda_handler_core (W : ExtWorld) (event_data : JVal) : HandlerResult :=
  match get_eventbridge_put_event_size event_data with
  | none => ⟨none, none, 0, []⟩
  | some sz =>
    if sz > 255950 then
      match event_data with
      | .obj ekvs =>
        match pyGet ekvs "detail" with
        | some (.obj dkvs) =>
          let truncated_event_data : JVal := (pyGet dkvs "data").getD .null
          let truncated_data_size : Nat := encodeLen (dumps event_data)
          let generate_file_name : String := W.uuidStr ++ ".json"
          let file_object_path : String :=
            toString W.year ++ "/" ++ toString W.month ++ "/" ++ toString W.day
              ++ "/" ++ generate_file_name
          let presigned_url : Option String :=
            create_presigned_url W.s3 W.bucketName generate_file_name file_object_path
              (W.pystr truncated_event_data) W.urlExpTime
          match add_event_metadata event_data true presigned_url (some truncated_data_size)
              (some W.bucketName) (some file_object_path) with
          | none => ⟨none, none, 1, []⟩
          | some event_with_metadata =>
            match get_eventbridge_put_event_size event_with_metadata with
            | none => ⟨none, none, 1, []⟩
            | some final_event_size =>
              ⟨some (overflowResponse presigned_url final_event_size),
               some event_with_metadata, 1,
               [put_event_size_metrics final_event_size (jGetD event_with_metadata "detail-type")
                  W.requestId]⟩
        | _ => ⟨none, none, 0, []⟩
      | _ => ⟨none, none, 0, []⟩
    else
      match add_event_metadata event_data false none none none none with
      | none => ⟨none, none, 0, []⟩
      | some event_with_metadata =>
        match get_eventbridge_put_event_size event_with_metadata with
        | none => ⟨none, none, 0, []⟩
        | some final_event_size =>
          ⟨some (passResponse final_event_size),
           some event_with_metadata, 0,
           [put_event_size_metrics final_event_size (jGetD event_with_metadata "detail-type")
              W.requestId]⟩

/-- Is the decoded body the Python value `False`?  Line 211 tests
`event_data is False`, which is also true when the body is the valid JSON
text `false` (CPython interns `False`), and is *not* true for the `None`
returned when the request has no `body` key. -/
def isPyFalse : ExtractResult → Bool
  | .decodeFail => true
  | .ok (.jbool false) => true
  | _ => false

/-- The Python value `extract_data` returned, as seen by the rest of the
handler once the `is False` test has failed. -/
def extractedValue : ExtractResult → JVal
  | .ok v => v
  | .decodeFail => .jbool false
  | .noBody => .null

/-- `lambda_handler` (lines 204–274).  The decorators (metrics flushing,
logging, tracing) wrap the function without changing its value and are not
modelled. -/
def lambda_handler (W : ExtWorld) (event : JVal) : HandlerResult :=
  match extract_data W.parse event with
  | none => ⟨none, none, 0, []⟩
  | some event_data =>
    if isPyFalse event_data then ⟨some invalidJsonResponse, none, 0, []⟩
    else lambda_handler_core W (extractedValue event_data)

/-!  Generic lookup helpers used only in statements and proofs.  -/

/-- Key lookup on a `JVal` known to be an object (`none` otherwise). -/
def jget (k : String) (v : JVal) : Option JVal :=
  match v with
  | .obj kvs => pyGet kvs k
  | _ => none

/-- Lookup along a path of keys. -/
def jPath (v : JVal) : List String → Option JVal
  | [] => some v
  | k :: ks =>
    match jget k v with
    | some w => jPath w ks
    | none => none


/-!  Association-list lemmas: Python dict update / delete semantics.  -/

theorem pyGet_eq_none_of_not_has (kvs : List (String × JVal)) (k : String)
    (h : assocHas kvs k = false) : pyGet kvs k = none := by
  induction kvs with
  | nil => rfl
  | cons p kvs ih =>
    simp only [assocHas, Bool.or_eq_false_iff] at h
    simp [pyGet, h.1, ih h.2]

theorem pyGet_replace_of_has (kvs : List (String × JVal)) (k : String) (v : JVal)
    (h : assocHas kvs k = true) : pyGet (assocReplace kvs k v) k = some v := by
  induction kvs with
  | nil => simp [assocHas] at h
  | cons p kvs ih =>
    by_cases hp : (p.1 == k) = true
    · simp [assocReplace, pyGet, hp]
    · simp only [assocHas, Bool.or_eq_true] at h
      rcases h with h | h
      · exact absurd h hp
      · simp only [assocReplace, pyGet, Bool.not_eq_true] at hp ⊢
        simp [hp, ih h]

theorem pyGet_append_single (kvs : List (String × JVal)) (k : String) (v : JVal)
    (h : assocHas kvs k = false) : pyGet (kvs ++ [(k, v)]) k = some v := by
  induction kvs with
  | nil => simp [pyGet]
  | cons p kvs ih =>
    simp only [assocHas, Bool.or_eq_false_iff] at h
    simp only [List.cons_append, pyGet, h.1]
    simp [ih h.2]

theorem pyGet_assocSet_self (kvs : List (String × JVal)) (k : String) (v : JVal) :
    pyGet (assocSet kvs k v) k = some v := by
  unfold assocSet
  by_cases h : assocHas kvs k = true
  · rw [if_pos h]
    exact pyGet_replace_of_has kvs k v h
  · rw [if_neg h]
    exact pyGet_append_single kvs k v (Bool.not_eq_true _ ▸ h)

theorem pyGet_replace_ne (kvs : List (String × JVal)) (k k' : String) (v : JVal)
    (h : k' ≠ k) : pyGet (assocReplace kvs k v) k' = pyGet kvs k' := by
  induction kvs with
  | nil => rfl
  | cons p kvs ih =>
    by_cases hp : (p.1 == k) = true
    · have hpk : p.1 = k := by simpa using hp
      have h1 : (k == k') = false := by simpa using fun hh => h hh.symm
      have h2 : (p.1 == k') = false := by simpa [hpk] using fun hh => h hh.symm
      simp [assocReplace, pyGet, hp, h1, h2, ih]
    · simp only [assocReplace, pyGet, Bool.not_eq_true] at hp ⊢
      simp [hp, ih]

theorem pyGet_append_single_ne (kvs : List (String × JVal)) (k k' : String) (v : JVal)
    (h : k' ≠ k) : pyGet (kvs ++ [(k, v)]) k' = pyGet kvs k' := by
  induction kvs with
  | nil =>
    have : (k == k') = false := by simpa using fun hh2 => h hh2.symm
    simp [pyGet, this]
  | cons p kvs ih =>
    by_cases hq : (p.1 == k') = true
    · simp [pyGet, hq]
    · simp only [Bool.not_eq_true] at hq
      simp only [List.cons_append, pyGet, hq]
      exact ih

theorem pyGet_assocSet_ne (kvs : List (String × JVal)) (k k' : String) (v : JVal)
    (h : k' ≠ k) : pyGet (assocSet kvs k v) k' = pyGet kvs k' := by
  unfold assocSet
  by_cases hh : assocHas kvs k = true
  · rw [if_pos hh]
    exact pyGet_replace_ne kvs k k' v h
  · rw [if_neg hh]
    exact pyGet_append_single_ne kvs k k' v h

theorem pyGet_assocDel_self (kvs : List (String × JVal)) (k : String) :
    pyGet (assocDel kvs k) k = none := by
  induction kvs with
  | nil => rfl
  | cons p kvs ih =>
    by_cases hp : (p.1 == k) = true
    · simpa [assocDel, hp] using ih
    · simp only [Bool.not_eq_true] at hp
      simp [assocDel, pyGet, hp, ih]

theorem pyGet_assocDel_ne (kvs : List (String × JVal)) (k k' : String)
    (h : k' ≠ k) : pyGet (assocDel kvs k) k' = pyGet kvs k' := by
  induction kvs with
  | nil => rfl
  | cons p kvs ih =>
    by_cases hp : (p.1 == k) = true
    · have hpk : p.1 = k := by simpa using hp
      have h2 : (p.1 == k') = false := by simpa [hpk] using fun hh => h hh.symm
      simp [assocDel, pyGet, hp, h2, ih]
    · simp only [Bool.not_eq_true] at hp
      by_cases hq : (p.1 == k') = true
      · simp [assocDel, pyGet, hp, hq]
      · simp only [Bool.not_eq_true] at hq
        simp [assocDel, pyGet, hp, hq, ih]

theorem countKey_replace_self (kvs : List (String × JVal)) (k : String) (v : JVal) :
    countKey (assocReplace kvs k v) k = countKey kvs k := by
  induction kvs with
  | nil => rfl
  | cons p kvs ih =>
    by_cases hp : (p.1 == k) = true
    · simp [assocReplace, countKey, hp, ih]
    · simp only [Bool.not_eq_true] at hp
      simp [assocReplace, countKey, hp, ih]

theorem countKey_eq_zero_of_not_has (kvs : List (String × JVal)) (k : String)
    (h : assocHas kvs k = false) : countKey kvs k = 0 := by
  induction kvs with
  | nil => rfl
  | cons p kvs ih =>
    simp only [assocHas, Bool.or_eq_false_iff] at h
    simp [countKey, h.1, ih h.2]

theorem countKey_pos_of_has (kvs : List (String × JVal)) (k : String)
    (h : assocHas kvs k = true) : 1 ≤ countKey kvs k := by
  induction kvs with
  | nil => simp [assocHas] at h
  | cons p kvs ih =>
    by_cases hp : (p.1 == k) = true
    · simp [countKey, hp]
    · simp only [assocHas, Bool.or_eq_true] at h
      rcases h with h | h
      · exact absurd h hp
      · simp only [Bool.not_eq_true] at hp
        simpa [countKey, hp] using ih h

theorem countKey_append_single (kvs : List (String × JVal)) (k : String) (v : JVal) :
    countKey (kvs ++ [(k, v)]) k = countKey kvs k + 1 := by
  induction kvs with
  | nil => simp [countKey]
  | cons p kvs ih =>
    rw [List.cons_append]
    simp only [countKey]
    rw [ih]
    omega

theorem countKey_assocSet_of_le_one (kvs : List (String × JVal)) (k : String) (v : JVal)
    (h : countKey kvs k ≤ 1) : countKey (assocSet kvs k v) k = 1 := by
  unfold assocSet
  by_cases hh : assocHas kvs k = true
  · rw [if_pos hh, countKey_replace_self]
    have := countKey_pos_of_has kvs k hh
    omega
  · rw [if_neg hh, countKey_append_single]
    rw [countKey_eq_zero_of_not_has kvs k (Bool.not_eq_true _ ▸ hh)]

/-!  UTF-8 byte-length lemmas.  -/

theorem encodeLen_append (s t : String) : encodeLen (s ++ t) = encodeLen s + encodeLen t := by
  simp [encodeLen, String.data_append]

theorem encodeLen_repl_a (n : Nat) : encodeLen (String.mk (List.replicate n 'a')) = n := by
  simp [encodeLen, List.map_replicate, List.sum_replicate, charUtf8Size]

theorem encodeLen_foldl (l : List String) (init : String) :
    encodeLen (l.foldl (fun a b => a ++ b) init) = encodeLen init + (l.map encodeLen).sum := by
  induction l generalizing init with
  | nil => simp
  | cons s l ih => simp [List.foldl_cons, ih, encodeLen_append]; omega

theorem encodeLen_join (l : List String) : encodeLen (String.join l) = (l.map encodeLen).sum := by
  have h0 : encodeLen "" = 0 := rfl
  have h := encodeLen_foldl l ""
  rw [h0, Nat.zero_add] at h
  exact h

theorem encodeLen_encodeString (s : String) :
    encodeLen (encodeString s) = 2 + (s.data.map (fun c => encodeLen (escapeChar c))).sum := by
  have h1 : encodeLen "\"" = 1 := by decide
  simp [encodeString, encodeLen_append, encodeLen_join, List.map_map, Function.comp_def, h1]
  omega

theorem escapeChar_a : escapeChar 'a' = "a" := by rfl

theorem encodeLen_encodeString_repl_a (n : Nat) :
    encodeLen (encodeString (String.mk (List.replicate n 'a'))) = n + 2 := by
  rw [encodeLen_encodeString]
  have h1 : encodeLen (escapeChar 'a') = 1 := by decide
  simp [List.map_replicate, List.sum_replicate, h1]
  omega

/-!  Size-estimator lemmas.  -/

theorem sumResources_map_str (rs : List String) :
    sumResources (rs.map JVal.str) =
      some (((rs.filter (fun s => !s.isEmpty)).map encodeLen).sum) := by
  induction rs with
  | nil => rfl
  | cons s rs ih =>
    by_cases hs : s.isEmpty
    · simp [sumResources, resourceBytes, pyTruthy, hs, List.filter_cons, ih]
    · simp [sumResources, resourceBytes, pyTruthy, hs, List.filter_cons, ih]

theorem size_obj_inv (kvs : List (String × JVal)) (n : Nat)
    (h : get_eventbridge_put_event_size (.obj kvs) = some n) :
    ∃ source detailType rs rsum,
      pyGetJ kvs "source" = .str source ∧ pyGetJ kvs "detail-type" = .str detailType ∧
      resourceList kvs = some rs ∧ sumResources rs = some rsum ∧
      n = timeOverhead kvs + encodeLen source + encodeLen detailType
        + encodeLen (dumps (pyGetJ kvs "detail")) + rsum := by
  simp only [get_eventbridge_put_event_size] at h
  split at h
  · rename_i source detailType rs hs hd hr
    split at h
    · rename_i rsum hsum
      injection h with h
      exact ⟨source, detailType, rs, rsum, hs, hd, hr, hsum, h.symm⟩
    · exact absurd h (by simp)
  · exact absurd h (by simp)

theorem timeOverhead_assocSet_detail (kvs : List (String × JVal)) (v : JVal) :
    timeOverhead (assocSet kvs "detail" v) = timeOverhead kvs := by
  unfold timeOverhead pyGetJ
  rw [pyGet_assocSet_ne kvs "detail" "time" v (by decide)]

theorem resourceList_assocSet_detail (kvs : List (String × JVal)) (v : JVal) :
    resourceList (assocSet kvs "detail" v) = resourceList kvs := by
  unfold resourceList
  rw [pyGet_assocSet_ne kvs "detail" "resources" v (by decide)]

theorem pyGetJ_assocSet_ne (kvs : List (String × JVal)) (k k' : String) (v : JVal)
    (h : k' ≠ k) : pyGetJ (assocSet kvs k v) k' = pyGetJ kvs k' := by
  unfold pyGetJ
  rw [pyGet_assocSet_ne kvs k k' v h]

theorem pyGetJ_assocSet_self (kvs : List (String × JVal)) (k : String) (v : JVal) :
    pyGetJ (assocSet kvs k v) k = v := by
  unfold pyGetJ
  rw [pyGet_assocSet_self]
  rfl

/-- Setting the `detail` key does not disturb the other size components, so
the estimator succeeds on the updated event with the `detail` term swapped. -/
theorem size_assocSet_detail (kvs : List (String × JVal)) (d' : JVal)
    (source detailType : String) (rs : List JVal) (rsum : Nat)
    (hs : pyGetJ kvs "source" = .str source)
    (hd : pyGetJ kvs "detail-type" = .str detailType)
    (hr : resourceList kvs = some rs)
    (hsum : sumResources rs = some rsum) :
    get_eventbridge_put_event_size (.obj (assocSet kvs "detail" d')) =
      some (timeOverhead kvs + encodeLen source + encodeLen detailType
        + encodeLen (dumps d') + rsum) := by
  have h1 : pyGetJ (assocSet kvs "detail" d') "source" = .str source := by
    rw [pyGetJ_assocSet_ne kvs "detail" "source" d' (by decide), hs]
  have h2 : pyGetJ (assocSet kvs "detail" d') "detail-type" = .str detailType := by
    rw [pyGetJ_assocSet_ne kvs "detail" "detail-type" d' (by decide), hd]
  have h3 : resourceList (assocSet kvs "detail" d') = some rs := by
    rw [resourceList_assocSet_detail, hr]
  have h4 : pyGetJ (assocSet kvs "detail" d') "detail" = d' := pyGetJ_assocSet_self kvs "detail" d'
  simp only [get_eventbridge_put_event_size, h1, h2, h3, h4, hsum,
    timeOverhead_assocSet_detail]

/-- The new `detail` dict produced by one `add_event_metadata` call: metadata
updated under the `event_trucation` key, then — when truncating — the `data`
key deleted if present. -/
def stampDetail (dkvs mkvs : List (String × JVal)) (b : Bool) (r : JVal) :
    List (String × JVal) :=
  let dkvs1 := assocSet dkvs "metadata" (.obj (assocSet mkvs "event_trucation" r))
  if b && assocHas dkvs1 "data" then assocDel dkvs1 "data" else dkvs1

theorem add_event_metadata_eq (ekvs dkvs mkvs : List (String × JVal)) (b : Bool)
    (u : Option String) (s : Option Nat) (bn op : Option String)
    (hd : pyGet ekvs "detail" = some (.obj dkvs))
    (hm : pyGet dkvs "metadata" = some (.obj mkvs)) :
    add_event_metadata (.obj ekvs) b u s bn op =
      some (.obj (assocSet ekvs "detail"
        (.obj (stampDetail dkvs mkvs b (truncation_record b u s bn op))))) := by
  simp only [add_event_metadata, hd, hm, stampDetail]

theorem pyGet_stampDetail_metadata (dkvs mkvs : List (String × JVal)) (b : Bool) (r : JVal) :
    pyGet (stampDetail dkvs mkvs b r) "metadata" =
      some (.obj (assocSet mkvs "event_trucation" r)) := by
  unfold stampDetail
  by_cases hb : (b && assocHas (assocSet dkvs "metadata"
      (.obj (assocSet mkvs "event_trucation" r))) "data") = true
  · simp only [hb, if_true]
    rw [pyGet_assocDel_ne _ "data" "metadata" (by decide), pyGet_assocSet_self]
  · simp only [Bool.not_eq_true] at hb
    simp only [hb, Bool.false_eq_true, if_false]
    rw [pyGet_assocSet_self]

theorem pyGet_stampDetail_ne (dkvs mkvs : List (String × JVal)) (b : Bool) (r : JVal)
    (k : String) (h1 : k ≠ "metadata") (h2 : k ≠ "data") :
    pyGet (stampDetail dkvs mkvs b r) k = pyGet dkvs k := by
  unfold stampDetail
  by_cases hb : (b && assocHas (assocSet dkvs "metadata"
      (.obj (assocSet mkvs "event_trucation" r))) "data") = true
  · simp only [hb, if_true]
    rw [pyGet_assocDel_ne _ "data" k h2, pyGet_assocSet_ne _ "metadata" k _ h1]
  · simp only [Bool.not_eq_true] at hb
    simp only [hb, Bool.false_eq_true, if_false]
    rw [pyGet_assocSet_ne _ "metadata" k _ h1]

theorem pyGet_stampDetail_true_data (dkvs mkvs : List (String × JVal)) (r : JVal) :
    pyGet (stampDetail dkvs mkvs true r) "data" = none := by
  unfold stampDetail
  by_cases hb : assocHas (assocSet dkvs "metadata"
      (.obj (assocSet mkvs "event_trucation" r))) "data" = true
  · simp only [hb, Bool.true_and, if_true]
    exact pyGet_assocDel_self _ "data"
  · simp only [Bool.not_eq_true] at hb
    simp only [hb, Bool.and_false, Bool.false_eq_true, if_false]
    exact pyGet_eq_none_of_not_has _ "data" hb

theorem pyGet_stampDetail_false_data (dkvs mkvs : List (String × JVal)) (r : JVal) :
    pyGet (stampDetail dkvs mkvs false r) "data" = pyGet dkvs "data" := by
  unfold stampDetail
  simp only [Bool.false_and, Bool.false_eq_true, if_false]
  exact pyGet_assocSet_ne _ "metadata" "data" _ (by decide)

theorem jGetD_assocSet_detail (ekvs : List (String × JVal)) (v : JVal) (k : String)
    (h : k ≠ "detail") : jGetD (.obj (assocSet ekvs "detail" v)) k = pyGetJ ekvs k := by
  simp only [jGetD]
  exact pyGetJ_assocSet_ne ekvs "detail" k v h

/-- The object key built on lines 226–229: today's date path plus the
`uuid4` file name. -/
def offloadKey (W : ExtWorld) : String :=
  toString W.year ++ "/" ++ toString W.month ++ "/" ++ toString W.day ++ "/"
    ++ (W.uuidStr ++ ".json")

/-- The presigned URL obtained on lines 232–234 for the offloaded
`detail.data` value (or `none` when the storage collaborator fails). -/
def offloadUrl (W : ExtWorld) (dkvs : List (String × JVal)) : Option String :=
  W.s3 W.bucketName (offloadKey W) (W.pystr ((pyGet dkvs "data").getD .null)) W.urlExpTime

/-- The truncation record stored by the overflow branch (lines 237–238):
note that its `event_data_size` field is the byte length of the *whole*
serialized event (line 223), not of `detail.data`. -/
def overflowRecord (W : ExtWorld) (ekvs dkvs : List (String × JVal)) : JVal :=
  truncation_record true (offloadUrl W dkvs) (some (encodeLen (dumps (.obj ekvs))))
    (some W.bucketName) (some (offloadKey W))

/-- Pass-through run of the handler body: raw size within the limit. -/
theorem run_pass (W : ExtWorld) (ekvs dkvs mkvs : List (String × JVal)) (n : Nat)
    (hsz : get_eventbridge_put_event_size (.obj ekvs) = some n)
    (hd : pyGet ekvs "detail" = some (.obj dkvs))
    (hm : pyGet dkvs "metadata" = some (.obj mkvs))
    (hn : ¬ 255950 < n) :
    ∃ m,
      get_eventbridge_put_event_size (.obj (assocSet ekvs "detail"
        (.obj (stampDetail dkvs mkvs false (truncation_record false none none none none))))) = some m ∧
      lambda_handler_core W (.obj ekvs) =
        ⟨some (passResponse m),
         some (.obj (assocSet ekvs "detail"
           (.obj (stampDetail dkvs mkvs false (truncation_record false none none none none))))),
         0, [(m, pyGetJ ekvs "detail-type", W.requestId)]⟩ := by
  obtain ⟨src, dt, rs, rsum, hs1, hs2, hs3, hs4, hneq⟩ := size_obj_inv ekvs n hsz
  have hsz2 := size_assocSet_detail ekvs
    (.obj (stampDetail dkvs mkvs false (truncation_record false none none none none)))
    src dt rs rsum hs1 hs2 hs3 hs4
  have hmeta := add_event_metadata_eq ekvs dkvs mkvs false none none none none hd hm
  have hjd : jGetD (.obj (assocSet ekvs "detail"
      (.obj (stampDetail dkvs mkvs false (truncation_record false none none none none)))))
      "detail-type" = pyGetJ ekvs "detail-type" :=
    jGetD_assocSet_detail ekvs _ "detail-type" (by decide)
  refine ⟨_, hsz2, ?_⟩
  simp only [lambda_handler_core, hsz, if_neg hn, hmeta, hsz2, put_event_size_metrics, hjd]

/-- Overflow run of the handler body: raw size above the limit. -/
theorem run_overflow (W : ExtWorld) (ekvs dkvs mkvs : List (String × JVal)) (n : Nat)
    (hsz : get_eventbridge_put_event_size (.obj ekvs) = some n)
    (hd : pyGet ekvs "detail" = some (.obj dkvs))
    (hm : pyGet dkvs "metadata" = some (.obj mkvs))
    (hn : 255950 < n) :
    ∃ m,
      get_eventbridge_put_event_size (.obj (assocSet ekvs "detail"
        (.obj (stampDetail dkvs mkvs true (overflowRecord W ekvs dkvs))))) = some m ∧
      lambda_handler_core W (.obj ekvs) =
        ⟨some (overflowResponse (offloadUrl W dkvs) m),
         some (.obj (assocSet ekvs "detail"
           (.obj (stampDetail dkvs mkvs true (overflowRecord W ekvs dkvs))))),
         1, [(m, pyGetJ ekvs "detail-type", W.requestId)]⟩ := by
  obtain ⟨src, dt, rs, rsum, hs1, hs2, hs3, hs4, hneq⟩ := size_obj_inv ekvs n hsz
  have hsz2 := size_assocSet_detail ekvs
    (.obj (stampDetail dkvs mkvs true (overflowRecord W ekvs dkvs)))
    src dt rs rsum hs1 hs2 hs3 hs4
  have hmeta := add_event_metadata_eq ekvs dkvs mkvs true (offloadUrl W dkvs)
    (some (encodeLen (dumps (.obj ekvs)))) (some W.bucketName) (some (offloadKey W)) hd hm
  have hjd : jGetD (.obj (assocSet ekvs "detail"
      (.obj (stampDetail dkvs mkvs true (overflowRecord W ekvs dkvs)))))
      "detail-type" = pyGetJ ekvs "detail-type" :=
    jGetD_assocSet_detail ekvs _ "detail-type" (by decide)
  refine ⟨_, hsz2, ?_⟩
  simp only [overflowRecord, offloadUrl, offloadKey] at hmeta hsz2 hjd ⊢
  simp only [lambda_handler_core, hsz, if_pos hn, hd, create_presigned_url,
    hmeta, hsz2, put_event_size_metrics, hjd]

/-- Decoding glue: a request whose string body parses to an object runs the
handler body on the decoded event. -/
theorem lambda_handler_decode (W : ExtWorld) (reqKvs ekvs : List (String × JVal))
    (bodyStr : String)
    (hb : pyGet reqKvs "body" = some (.str bodyStr))
    (hp : W.parse bodyStr = some (.obj ekvs)) :
    lambda_handler W (.obj reqKvs) = lambda_handler_core W (.obj ekvs) := by
  simp only [lambda_handler, extract_data, hb, hp, isPyFalse, extractedValue]
  rfl

theorem size_obj_formula (kvs : List (String × JVal)) (source detailType : String)
    (rs : List JVal) (rsum : Nat)
    (hs1 : pyGetJ kvs "source" = .str source)
    (hs2 : pyGetJ kvs "detail-type" = .str detailType)
    (hs3 : resourceList kvs = some rs)
    (hs4 : sumResources rs = some rsum) :
    get_eventbridge_put_event_size (.obj kvs) =
      some (timeOverhead kvs + encodeLen source + encodeLen detailType
        + encodeLen (dumps (pyGetJ kvs "detail")) + rsum) := by
  simp only [get_eventbridge_put_event_size, hs1, hs2, hs3, hs4]

/-!  Claim C1: the size-estimator formula.  -/

/-- An Event of the spec's data model (§3): `source`, `detailType`,
`detail`, `resources` (a sequence of strings) and an optional `time`
value. -/
def mkEvent (timeVal : Option JVal) (source detailType : String) (detail : JVal)
    (resources : List String) : JVal :=
  .obj ((match timeVal with | some v => [("time", v)] | none => []) ++
    [("source", .str source), ("detail-type", .str detailType),
     ("detail", detail), ("resources", .arr (resources.map .str))])

/-- The size formula in the spec's words (§4.2, §8): a fixed 14-byte charge
governed by the boolean `timeCharge`, plus the UTF-8 lengths of `source`,
`detailType`, the serialized `detail`, and every non-empty `resources`
entry.  The claim takes `timeCharge` to be "the `time` field is present". -/
def spec_event_size (timeCharge : Bool) (source detailType : String) (detail : JVal)
    (resources : List String) : Nat :=
  (if timeCharge then 14 else 0) + encodeLen source + encodeLen detailType
    + encodeLen (dumps detail)
    + ((resources.filter (fun s => !s.isEmpty)).map encodeLen).sum

/-- Does the code's `.get("time") is not None` test charge the overhead:
the `time` field must be present *and* non-null. -/
def timePresentNonNull : Option JVal → Bool
  | none => false
  | some .null => false
  | some _ => true

/-- C1, counterexample: for the event with fields `time` = null (present!),
`source` = "a", `detail-type` = "b", `detail` = null, `resources` = [], the
claim's formula charges the 14-byte overhead because `time` is present, but
`get_eventbridge_put_event_size` tests `.get("time") is not None`, conflating
a present null with an absent field, and returns 6 rather than 20. -/
theorem C1_counterexample :
    get_eventbridge_put_event_size (mkEvent (some JVal.null) "a" "b" JVal.null []) ≠
      some (spec_event_size true "a" "b" JVal.null []) := by
  decide

/-- C1, amended: the estimator returns exactly 14 bytes if `time` is present
with a non-null value (0 otherwise), plus the UTF-8 byte lengths of
`source`, `detail-type`, the canonical JSON serialization of `detail`, and
each non-empty `resources` entry. -/
theorem C1_size_estimator_formula (timeVal : Option JVal) (source detailType : String)
    (detail : JVal) (resources : List String) :
    get_eventbridge_put_event_size (mkEvent timeVal source detailType detail resources) =
      some (spec_event_size (timePresentNonNull timeVal) source detailType detail resources) := by
  cases timeVal with
  | none =>
    simp only [mkEvent, List.nil_append]
    rw [size_obj_formula
      [("source", .str source), ("detail-type", .str detailType),
       ("detail", detail), ("resources", .arr (resources.map .str))]
      source detailType (resources.map JVal.str) _ rfl rfl rfl
      (sumResources_map_str resources)]
    rfl
  | some v =>
    cases v <;>
      (simp only [mkEvent, List.singleton_append]
       rw [size_obj_formula
         (("time", _) :: [("source", .str source), ("detail-type", .str detailType),
          ("detail", detail), ("resources", .arr (resources.map .str))])
         source detailType (resources.map JVal.str) _ rfl rfl rfl
         (sumResources_map_str resources)]
       rfl)

/-!  Path-lookup lemmas on annotated events.  -/

theorem jPath_stamped_record (ekvs dkvs mkvs : List (String × JVal)) (b : Bool) (r : JVal) :
    jPath (.obj (assocSet ekvs "detail" (.obj (stampDetail dkvs mkvs b r))))
      ["detail", "metadata", "event_trucation"] = some r := by
  simp only [jPath, jget, pyGet_assocSet_self, pyGet_stampDetail_metadata]

theorem jPath_stamped_data_true (ekvs dkvs mkvs : List (String × JVal)) (r : JVal) :
    jPath (.obj (assocSet ekvs "detail" (.obj (stampDetail dkvs mkvs true r))))
      ["detail", "data"] = none := by
  simp only [jPath, jget, pyGet_assocSet_self, pyGet_stampDetail_true_data]

/-- C2: a decoded event whose raw estimated size is at most 255950 bytes is
passed through: the handler returns the 200 `passResponse` (whose `event`
carries `event_trucated: false`), the final event's `detail.metadata` is
stamped with the non-truncated record, and the storage collaborator is
invoked zero times. -/
theorem C2_small_event_passes_through (W : ExtWorld)
    (reqKvs ekvs dkvs mkvs : List (String × JVal)) (bodyStr : String) (n : Nat)
    (hb : pyGet reqKvs "body" = some (.str bodyStr))
    (hp : W.parse bodyStr = some (.obj ekvs))
    (hsz : get_eventbridge_put_event_size (.obj ekvs) = some n)
    (hd : pyGet ekvs "detail" = some (.obj dkvs))
    (hm : pyGet dkvs "metadata" = some (.obj mkvs))
    (hn : n ≤ 255950) :
    ∃ ev m,
      lambda_handler W (.obj reqKvs) =
        ⟨some (passResponse m), some ev, 0, [(m, pyGetJ ekvs "detail-type", W.requestId)]⟩ ∧
      jPath ev ["detail", "metadata", "event_trucation"] =
        some (truncation_record false none none none none) := by
  obtain ⟨m, hsz2, hrun⟩ := run_pass W ekvs dkvs mkvs n hsz hd hm (by omega)
  refine ⟨_, m, ?_, jPath_stamped_record ekvs dkvs mkvs false _⟩
  rw [lambda_handler_decode W reqKvs ekvs bodyStr hb hp, hrun]

/-- C3: a decoded event whose raw estimated size exceeds 255950 bytes is
offloaded: assuming the storage collaborator succeeds and returns a
non-empty presigned URL, the handler invokes it exactly once, removes
`detail.data`, and stamps the truncated record carrying that URL. -/
theorem C3_overflow_offloads (W : ExtWorld)
    (reqKvs ekvs dkvs mkvs : List (String × JVal)) (bodyStr : String) (n : Nat) (u : String)
    (hb : pyGet reqKvs "body" = some (.str bodyStr))
    (hp : W.parse bodyStr = some (.obj ekvs))
    (hsz : get_eventbridge_put_event_size (.obj ekvs) = some n)
    (hd : pyGet ekvs "detail" = some (.obj dkvs))
    (hm : pyGet dkvs "metadata" = some (.obj mkvs))
    (hn : 255950 < n)
    (hurl : offloadUrl W dkvs = some u)
    (hne : u ≠ "") :
    ∃ ev m,
      lambda_handler W (.obj reqKvs) =
        ⟨some (overflowResponse (some u) m), some ev, 1,
         [(m, pyGetJ ekvs "detail-type", W.requestId)]⟩ ∧
      jPath ev ["detail", "data"] = none ∧
      jPath ev ["detail", "metadata", "event_trucation"] =
        some (truncation_record true (some u) (some (encodeLen (dumps (.obj ekvs))))
          (some W.bucketName) (some (offloadKey W))) ∧
      u ≠ "" := by
  obtain ⟨m, hsz2, hrun⟩ := run_overflow W ekvs dkvs mkvs n hsz hd hm hn
  refine ⟨.obj (assocSet ekvs "detail"
      (.obj (stampDetail dkvs mkvs true (overflowRecord W ekvs dkvs)))), m, ?_,
    jPath_stamped_data_true ekvs dkvs mkvs _, ?_, hne⟩
  · rw [lambda_handler_decode W reqKvs ekvs bodyStr hb hp, hrun, hurl]
  · rw [jPath_stamped_record ekvs dkvs mkvs true _, overflowRecord, hurl]

/-- C6: the estimator runs twice per request — the branch taken is decided
by the raw event's size `n` (computed before any mutation), while the size
`m` reported in the response and in the metric sample is the estimator's
value on the final, metadata-annotated event `ev`. -/
theorem C6_estimator_raw_then_final (W : ExtWorld)
    (reqKvs ekvs dkvs mkvs : List (String × JVal)) (bodyStr : String) (n : Nat)
    (hb : pyGet reqKvs "body" = some (.str bodyStr))
    (hp : W.parse bodyStr = some (.obj ekvs))
    (hsz : get_eventbridge_put_event_size (.obj ekvs) = some n)
    (hd : pyGet ekvs "detail" = some (.obj dkvs))
    (hm : pyGet dkvs "metadata" = some (.obj mkvs)) :
    (n ≤ 255950 →
      ∃ ev m, add_event_metadata (.obj ekvs) false none none none none = some ev ∧
        get_eventbridge_put_event_size ev = some m ∧
        lambda_handler W (.obj reqKvs) =
          ⟨some (passResponse m), some ev, 0, [(m, pyGetJ ekvs "detail-type", W.requestId)]⟩) ∧
    (255950 < n →
      ∃ ev m, add_event_metadata (.obj ekvs) true (offloadUrl W dkvs)
          (some (encodeLen (dumps (.obj ekvs)))) (some W.bucketName)
          (some (offloadKey W)) = some ev ∧
        get_eventbridge_put_event_size ev = some m ∧
        lambda_handler W (.obj reqKvs) =
          ⟨some (overflowResponse (offloadUrl W dkvs) m), some ev, 1,
           [(m, pyGetJ ekvs "detail-type", W.requestId)]⟩) := by
  constructor
  · intro hn
    obtain ⟨m, hsz2, hrun⟩ := run_pass W ekvs dkvs mkvs n hsz hd hm (by omega)
    refine ⟨_, m, add_event_metadata_eq ekvs dkvs mkvs false none none none none hd hm,
      hsz2, ?_⟩
    rw [lambda_handler_decode W reqKvs ekvs bodyStr hb hp, hrun]
  · intro hn
    obtain ⟨m, hsz2, hrun⟩ := run_overflow W ekvs dkvs mkvs n hsz hd hm hn
    have hmeta := add_event_metadata_eq ekvs dkvs mkvs true (offloadUrl W dkvs)
      (some (encodeLen (dumps (.obj ekvs)))) (some W.bucketName) (some (offloadKey W)) hd hm
    refine ⟨_, m, hmeta, ?_, ?_⟩
    · exact hsz2
    · rw [lambda_handler_decode W reqKvs ekvs bodyStr hb hp, hrun]
      rfl

/-- C7: a request whose string body fails to parse as JSON gets the 400
`invalidJsonResponse` (`statusCode` 400, message "Invalid JSON in body"),
with no storage invocation and no metric samples. -/
theorem C7_invalid_json_body (W : ExtWorld) (reqKvs : List (String × JVal)) (s : String)
    (hb : pyGet reqKvs "body" = some (.str s))
    (hp : W.parse s = none) :
    lambda_handler W (.obj reqKvs) = ⟨some invalidJsonResponse, none, 0, []⟩ := by
  simp only [lambda_handler, extract_data, hb, hp, isPyFalse]
  rfl

/-- C8: annotating an already-annotated event is idempotent on the
truncation key: as long as the original metadata dict holds at most one
`event_trucation` entry (Python dicts always do), the twice-annotated event
holds exactly one, and its value is the record of the last application. -/
theorem C8_annotator_idempotent (ekvs dkvs mkvs : List (String × JVal))
    (b1 b2 : Bool) (u1 u2 : Option String) (s1 s2 : Option Nat)
    (bn1 bn2 op1 op2 : Option String) (e1 e2 : JVal)
    (hd : pyGet ekvs "detail" = some (.obj dkvs))
    (hm : pyGet dkvs "metadata" = some (.obj mkvs))
    (hone : countKey mkvs "event_trucation" ≤ 1)
    (h1 : add_event_metadata (.obj ekvs) b1 u1 s1 bn1 op1 = some e1)
    (h2 : add_event_metadata e1 b2 u2 s2 bn2 op2 = some e2) :
    ∃ mkvs2, jPath e2 ["detail", "metadata"] = some (.obj mkvs2) ∧
      countKey mkvs2 "event_trucation" = 1 ∧
      pyGet mkvs2 "event_trucation" = some (truncation_record b2 u2 s2 bn2 op2) := by
  rw [add_event_metadata_eq ekvs dkvs mkvs b1 u1 s1 bn1 op1 hd hm] at h1
  injection h1 with h1
  subst h1
  rw [add_event_metadata_eq _ _ _ b2 u2 s2 bn2 op2 (pyGet_assocSet_self ekvs "detail" _)
    (pyGet_stampDetail_metadata dkvs mkvs b1 _)] at h2
  injection h2 with h2
  subst h2
  have hcnt1 : countKey (assocSet mkvs "event_trucation"
      (truncation_record b1 u1 s1 bn1 op1)) "event_trucation" = 1 :=
    countKey_assocSet_of_le_one mkvs "event_trucation" _ hone
  refine ⟨assocSet (assocSet mkvs "event_trucation" (truncation_record b1 u1 s1 bn1 op1))
    "event_trucation" (truncation_record b2 u2 s2 bn2 op2), ?_, ?_, ?_⟩
  · simp only [jPath, jget, pyGet_assocSet_self, pyGet_stampDetail_metadata]
  · exact countKey_assocSet_of_le_one _ "event_trucation" _ (by omega)
  · exact pyGet_assocSet_self _ "event_trucation" _

/-- C9: a request object with no `body` key makes `extract_data` fall
through and return `None` (not the decode-failure value `False`); the
handler's `event_data is False` test therefore passes it on, the estimator
is applied to `None`, and the invocation raises (`response` is `none`, the
crash marker) instead of producing the 400 decode failure. -/
theorem C9_missing_body_crashes (W : ExtWorld) (reqKvs : List (String × JVal))
    (hb : pyGet reqKvs "body" = none) :
    extract_data W.parse (.obj reqKvs) = some .noBody ∧
    lambda_handler W (.obj reqKvs) = ⟨none, none, 0, []⟩ := by
  constructor
  · simp only [extract_data, hb]
  · simp only [lambda_handler, extract_data, hb]
    rfl

/-- C10: frame property of `add_event_metadata` on events whose `detail`
holds a `metadata` dict: only `detail.metadata.event_trucation` is written
(and, when truncating, only `detail.data` is removed); every other
top-level key, `detail` key and `metadata` key is untouched. -/
theorem C10_annotator_frame (ekvs dkvs mkvs : List (String × JVal)) (b : Bool)
    (u : Option String) (s : Option Nat) (bn op : Option String) (e' : JVal)
    (hd : pyGet ekvs "detail" = some (.obj dkvs))
    (hm : pyGet dkvs "metadata" = some (.obj mkvs))
    (h : add_event_metadata (.obj ekvs) b u s bn op = some e') :
    ∃ dkvs2 mkvs2,
      jget "detail" e' = some (.obj dkvs2) ∧
      pyGet dkvs2 "metadata" = some (.obj mkvs2) ∧
      (∀ k, k ≠ "detail" → jget k e' = pyGet ekvs k) ∧
      (∀ k, k ≠ "metadata" → k ≠ "data" → pyGet dkvs2 k = pyGet dkvs k) ∧
      (b = false → pyGet dkvs2 "data" = pyGet dkvs "data") ∧
      (b = true → pyGet dkvs2 "data" = none) ∧
      (∀ k, k ≠ "event_trucation" → pyGet mkvs2 k = pyGet mkvs k) ∧
      pyGet mkvs2 "event_trucation" = some (truncation_record b u s bn op) := by
  rw [add_event_metadata_eq ekvs dkvs mkvs b u s bn op hd hm] at h
  injection h with h
  subst h
  refine ⟨stampDetail dkvs mkvs b (truncation_record b u s bn op),
    assocSet mkvs "event_trucation" (truncation_record b u s bn op),
    ?_, ?_, ?_, ?_, ?_, ?_, ?_, ?_⟩
  · simp only [jget, pyGet_assocSet_self]
  · exact pyGet_stampDetail_metadata dkvs mkvs b _
  · intro k hk
    simp only [jget]
    exact pyGet_assocSet_ne ekvs "detail" k _ hk
  · intro k h1 h2
    exact pyGet_stampDetail_ne dkvs mkvs b _ k h1 h2
  · intro hbf
    subst hbf
    exact pyGet_stampDetail_false_data dkvs mkvs _
  · intro hbt
    subst hbt
    exact pyGet_stampDetail_true_data dkvs mkvs _
  · intro k hk
    exact pyGet_assocSet_ne mkvs "event_trucation" k _ hk
  · exact pyGet_assocSet_self mkvs "event_trucation" _

theorem jPath_stamped_record_field (ekvs dkvs mkvs : List (String × JVal)) (b : Bool)
    (r : JVal) (k : String) :
    jPath (.obj (assocSet ekvs "detail" (.obj (stampDetail dkvs mkvs b r))))
      ["detail", "metadata", "event_trucation", k] = jget k r := by
  simp only [jPath, jget, pyGet_assocSet_self, pyGet_stampDetail_metadata]
  cases r <;> simp
  case obj kvs =>
    cases pyGet kvs k <;> simp

/-!  A concrete oversized event: the `source` string alone is 255951 bytes,
so the raw estimated size (255983 bytes) exceeds the 255950-byte limit,
while `detail.data` is the 3-byte string "abc".  -/

def bigStr : String := String.mk (List.replicate 255951 'a')

def bigDetail : List (String × JVal) := [("data", .str "abc"), ("metadata", .obj [])]

def bigEkvs : List (String × JVal) :=
  [("source", .str bigStr), ("detail-type", .str "t"), ("detail", .obj bigDetail)]

theorem size_bigEkvs : get_eventbridge_put_event_size (.obj bigEkvs) = some 255983 := by
  rw [size_obj_formula bigEkvs bigStr "t" [] 0 rfl rfl rfl rfl]
  rw [show pyGetJ bigEkvs "detail" = .obj bigDetail from rfl]
  rw [show bigStr = String.mk (List.replicate 255951 'a') from rfl, encodeLen_repl_a]
  decide

theorem encodeLen_dumps_bigEkvs : encodeLen (dumps (.obj bigEkvs)) = 256028 := by
  simp only [bigEkvs, bigDetail, dumps, dumpsObj]
  simp only [encodeLen_append]
  rw [show bigStr = String.mk (List.replicate 255951 'a') from rfl,
    encodeLen_encodeString_repl_a]
  decide

/-- A small pass-through event (the spec's §8 scenario). -/
def smallDetail : List (String × JVal) := [("data", .str "small"), ("metadata", .obj [])]

def smallEkvs : List (String × JVal) :=
  [("source", .str "svc"), ("detail-type", .str "order"),
   ("detail", .obj smallDetail), ("resources", .arr [])]

/-- A world whose request body decodes to the small event and whose storage
collaborator succeeds. -/
def W_small : ExtWorld :=
  ⟨fun _ => some (.obj smallEkvs), fun _ => "", fun _ _ _ _ => some "https://url",
   "uid", 2024, 9, 30, "bkt", "3600", "req"⟩

/-- A world whose request body decodes to the oversized event and whose
storage collaborator succeeds. -/
def W_big_ok : ExtWorld :=
  ⟨fun _ => some (.obj bigEkvs), fun _ => "", fun _ _ _ _ => some "https://url",
   "uid", 2024, 9, 30, "bkt", "3600", "req"⟩

/-- A world whose request body decodes to the oversized event and whose
storage collaborator raises `ClientError` on every call. -/
def W_big_fail : ExtWorld :=
  ⟨fun _ => some (.obj bigEkvs), fun _ => "", fun _ _ _ _ => none,
   "uid", 2024, 9, 30, "bkt", "3600", "req"⟩

/-- A world whose `json.loads` rejects every body. -/
def W_badjson : ExtWorld :=
  ⟨fun _ => none, fun _ => "", fun _ _ _ _ => none, "u", 0, 0, 0, "b", "3600", "r"⟩

/-- C4: at the failing input — the oversized event with a storage
collaborator that raises `ClientError` (so `create_presigned_url` returns
`None`) — the handler still returns the 200 overflow response with a null
`presigned_url`, still deletes `detail.data`, and stamps a truncation
record whose `event_body_url` is null: the offload failure is swallowed and
reported as an ordinary success, with the event's payload lost. -/
theorem C4_code_bug :
    ∃ ev m,
      lambda_handler W_big_fail (.obj [("body", .str "B")]) =
        ⟨some (overflowResponse none m), some ev, 1,
         [(m, pyGetJ bigEkvs "detail-type", W_big_fail.requestId)]⟩ ∧
      jget "statusCode" (overflowResponse none m) = some (.num 200) ∧
      jPath (overflowResponse none m) ["event", "presigned_url"] = some JVal.null ∧
      jPath ev ["detail", "data"] = none ∧
      jPath ev ["detail", "metadata", "event_trucation", "event_body_url"] =
        some JVal.null := by
  obtain ⟨m, hsz2, hrun⟩ := run_overflow W_big_fail bigEkvs bigDetail [] 255983
    size_bigEkvs rfl rfl (by decide)
  have hde := lambda_handler_decode W_big_fail [("body", .str "B")] bigEkvs "B" rfl rfl
  have hu : offloadUrl W_big_fail bigDetail = none := rfl
  refine ⟨.obj (assocSet bigEkvs "detail"
      (.obj (stampDetail bigDetail [] true (overflowRecord W_big_fail bigEkvs bigDetail)))),
    m, ?_, rfl, rfl, jPath_stamped_data_true bigEkvs bigDetail [] _, ?_⟩
  · rw [hde, hrun, hu]
  · rw [jPath_stamped_record_field bigEkvs bigDetail [] true _ "event_body_url",
      overflowRecord, hu]
    rfl

/-- C5: at the failing input — the oversized event whose `detail.data` is
the 3-byte string "abc" — the truncation record's `event_data_size` is
256028, the byte length of the *whole* event serialized by
`json.dumps(event_data)` on line 223, not the 3-byte size of `detail.data`
serialized to its string representation as the claim (and the code's own
comment on lines 221–222) require. -/
theorem C5_code_bug :
    ∃ ev m,
      lambda_handler W_big_ok (.obj [("body", .str "B")]) =
        ⟨some (overflowResponse (some "https://url") m), some ev, 1,
         [(m, pyGetJ bigEkvs "detail-type", W_big_ok.requestId)]⟩ ∧
      jPath ev ["detail", "metadata", "event_trucation", "event_data_size"] =
        some (.num 256028) ∧
      jget "data" (.obj bigDetail) = some (.str "abc") ∧
      encodeLen "abc" = 3 ∧
      (256028 : Int) ≠ 3 := by
  obtain ⟨m, hsz2, hrun⟩ := run_overflow W_big_ok bigEkvs bigDetail [] 255983
    size_bigEkvs rfl rfl (by decide)
  have hde := lambda_handler_decode W_big_ok [("body", .str "B")] bigEkvs "B" rfl rfl
  have hu : offloadUrl W_big_ok bigDetail = some "https://url" := rfl
  refine ⟨.obj (assocSet bigEkvs "detail"
      (.obj (stampDetail bigDetail [] true (overflowRecord W_big_ok bigEkvs bigDetail)))),
    m, ?_, ?_, rfl, by decide, by decide⟩
  · rw [hde, hrun, hu]
  · rw [jPath_stamped_record_field bigEkvs bigDetail [] true _ "event_data_size",
      overflowRecord, encodeLen_dumps_bigEkvs]
    rfl

theorem C2_witness :
    ∃ ev m,
      lambda_handler W_small (.obj [("body", .str "B")]) =
        ⟨some (passResponse m), some ev, 0,
         [(m, pyGetJ smallEkvs "detail-type", W_small.requestId)]⟩ ∧
      jPath ev ["detail", "metadata", "event_trucation"] =
        some (truncation_record false none none none none) :=
  C2_small_event_passes_through W_small [("body", .str "B")] smallEkvs smallDetail []
    "B" 41 rfl rfl (by decide) rfl rfl (by decide)

theorem C3_witness :
    ∃ ev m,
      lambda_handler W_big_ok (.obj [("body", .str "B")]) =
        ⟨some (overflowResponse (some "https://url") m), some ev, 1,
         [(m, pyGetJ bigEkvs "detail-type", W_big_ok.requestId)]⟩ ∧
      jPath ev ["detail", "data"] = none ∧
      jPath ev ["detail", "metadata", "event_trucation"] =
        some (truncation_record true (some "https://url")
          (some (encodeLen (dumps (.obj bigEkvs)))) (some W_big_ok.bucketName)
          (some (offloadKey W_big_ok))) ∧
      "https://url" ≠ "" :=
  C3_overflow_offloads W_big_ok [("body", .str "B")] bigEkvs bigDetail [] "B" 255983
    "https://url" rfl rfl size_bigEkvs rfl rfl (by decide) rfl (by decide)

theorem C6_witness :
    (41 ≤ 255950 →
      ∃ ev m, add_event_metadata (.obj smallEkvs) false none none none none = some ev ∧
        get_eventbridge_put_event_size ev = some m ∧
        lambda_handler W_small (.obj [("body", .str "B")]) =
          ⟨some (passResponse m), some ev, 0,
           [(m, pyGetJ smallEkvs "detail-type", W_small.requestId)]⟩) ∧
    (255950 < 41 →
      ∃ ev m, add_event_metadata (.obj smallEkvs) true (offloadUrl W_small smallDetail)
          (some (encodeLen (dumps (.obj smallEkvs)))) (some W_small.bucketName)
          (some (offloadKey W_small)) = some ev ∧
        get_eventbridge_put_event_size ev = some m ∧
        lambda_handler W_small (.obj [("body", .str "B")]) =
          ⟨some (overflowResponse (offloadUrl W_small smallDetail) m), some ev, 1,
           [(m, pyGetJ smallEkvs "detail-type", W_small.requestId)]⟩) :=
  C6_estimator_raw_then_final W_small [("body", .str "B")] smallEkvs smallDetail []
    "B" 41 rfl rfl (by decide) rfl rfl

theorem C7_witness :
    lambda_handler W_badjson (.obj [("body", .str "\x7binvalid")]) =
      ⟨some invalidJsonResponse, none, 0, []⟩ :=
  C7_invalid_json_body W_badjson [("body", .str "\x7binvalid")] "\x7binvalid" rfl rfl

def rec8a : JVal := truncation_record true (some "u") (some 3) (some "b") (some "k")

def rec8b : JVal := truncation_record false none none none none

def e8a : JVal := .obj [("detail", .obj [("metadata", .obj [("event_trucation", rec8a)])])]

def e8b : JVal := .obj [("detail", .obj [("metadata", .obj [("event_trucation", rec8b)])])]

theorem C8_witness :
    ∃ mkvs2, jPath e8b ["detail", "metadata"] = some (.obj mkvs2) ∧
      countKey mkvs2 "event_trucation" = 1 ∧
      pyGet mkvs2 "event_trucation" = some (truncation_record false none none none none) :=
  C8_annotator_idempotent [("detail", .obj [("metadata", .obj []), ("data", .str "x")])]
    [("metadata", .obj []), ("data", .str "x")] [] true false (some "u") none (some 3) none
    (some "b") none (some "k") none e8a e8b rfl rfl (by decide) rfl rfl

theorem C9_witness :
    extract_data W_badjson.parse (.obj [("detail", .null)]) = some .noBody ∧
    lambda_handler W_badjson (.obj [("detail", .null)]) = ⟨none, none, 0, []⟩ :=
  C9_missing_body_crashes W_badjson [("detail", .null)] rfl

def rec10 : JVal := truncation_record true (some "u") (some 7) (some "b") (some "k")

def ekvs10 : List (String × JVal) :=
  [("source", .str "s"),
   ("detail", .obj [("metadata", .obj [("keep", .num 1)]), ("data", .str "x"),
     ("other", .null)])]

def e10 : JVal :=
  .obj [("source", .str "s"),
        ("detail", .obj [("metadata", .obj [("keep", .num 1), ("event_trucation", rec10)]),
          ("other", .null)])]

theorem C10_witness :
    ∃ dkvs2 mkvs2,
      jget "detail" e10 = some (.obj dkvs2) ∧
      pyGet dkvs2 "metadata" = some (.obj mkvs2) ∧
      (∀ k, k ≠ "detail" → jget k e10 = pyGet ekvs10 k) ∧
      (∀ k, k ≠ "metadata" → k ≠ "data" →
        pyGet dkvs2 k = pyGet [("metadata", .obj [("keep", .num 1)]), ("data", .str "x"),
          ("other", .null)] k) ∧
      (true = false → pyGet dkvs2 "data" = pyGet [("metadata", .obj [("keep", .num 1)]),
        ("data", .str "x"), ("other", .null)] "data") ∧
      (true = true → pyGet dkvs2 "data" = none) ∧
      (∀ k, k ≠ "event_trucation" → pyGet mkvs2 k = pyGet [("keep", .num 1)] k) ∧
      pyGet mkvs2 "event_trucation" =
        some (truncation_record true (some "u") (some 7) (some "b") (some "k")) :=
  C10_annotator_frame ekvs10
    [("metadata", .obj [("keep", .num 1)]), ("data", .str "x"), ("other", .null)]
    [("keep", .num 1)] true (some "u") (some 7) (some "b") (some "k") e10 rfl rfl rfl
